import Mathlib

/-!
Verification development for the tickrapp timesheet application
(`timesheet_app`: `models.py`, `forms.py`, `views.py`,
`templatetags/custom_filters.py`).

Shallow embedding conventions:
* datetimes are seconds since an arbitrary epoch (`Nat`);
* calendar dates are proleptic-Gregorian day ordinals (`Nat`), the same
  numbering Python's `date.toordinal()` uses, so 2024-01-01 is 738886;
* times-of-day are seconds after midnight; `datetime.combine` becomes
  `combine`: date * 86400 + time-of-day;
* nullable columns are `Option`; Python comparisons that raise `TypeError`
  on `None` operands are modelled in `Except`;
* querysets are materialized `List`s passed explicitly.
-/

namespace Tickr

/-- Python `date.weekday()`: Monday = 0 … Sunday = 6, for a day ordinal
(`date(1,1,1).toordinal() = 1` was a Monday). -/
def weekday (d : Nat) : Nat := (d + 6) % 7

/-- `datetime.combine(work_date, time_of_day)` as epoch seconds. -/
def combine (wd t : Nat) : Nat := wd * 86400 + t

/-- Row of `TimesheetEntry` (models.py). `pk` is `None` for an unsaved row;
`project` carries just the project name (all the reporting code uses);
`work_date` a day ordinal; `start_time`/`end_time` epoch seconds. -/
structure TimesheetEntry where
  pk : Option Nat
  user_id : Option Nat
  project : Option String
  work_date : Option Nat
  start_time : Option Nat
  end_time : Option Nat
  break_minutes : Nat
  duration_minutes : Nat
  billable : Bool
  notes : String
deriving DecidableEq, Repr

/-- Errors the Python code can produce: a Django `ValidationError` with its
message, or an uncaught `TypeError` from comparing a datetime with `None`. -/
inductive PyErr where
  | validationError (msg : String)
  | typeError
deriving DecidableEq, Repr

/-- Python `<=` on two nullable datetimes: comparing with `None` raises
`TypeError`. -/
def pyLe : Option Nat → Option Nat → Except PyErr Bool
  | some a, some b => .ok (a ≤ b)
  | _, _ => .error .typeError

/-- Python `>=` on two nullable datetimes: comparing with `None` raises
`TypeError`. -/
def pyGe : Option Nat → Option Nat → Except PyErr Bool
  | some a, some b => .ok (b ≤ a)
  | _, _ => .error .typeError

/-- The overlap loop of `TimesheetEntry.clean` (models.py lines 118-124):
`if not (self.end_time <= e.start_time or self.start_time >= e.end_time)`
with Python's short-circuit `or`. -/
def modelOverlapLoop (st en : Option Nat) : List TimesheetEntry → Except PyErr Unit
  | [] => .ok ()
  | e :: rest => do
    let c1 ← pyLe en e.start_time
    if c1 then
      modelOverlapLoop st en rest
    else
      let c2 ← pyGe st e.end_time
      if c2 then
        modelOverlapLoop st en rest
      else
        .error (.validationError "Overlapping entry for this day exists.")

/-- The queryset of `TimesheetEntry.clean`:
`TimesheetEntry.objects.filter(user=self.user, work_date=self.work_date)`,
then `.exclude(pk=self.pk)` when `self.pk` is set. -/
def modelCleanQs (self : TimesheetEntry) (entries : List TimesheetEntry) : List TimesheetEntry :=
  let qs := entries.filter fun x => x.user_id == self.user_id && x.work_date == self.work_date
  match self.pk with
  | some pk => qs.filter fun x => x.pk != some pk
  | none => qs

/-- `TimesheetEntry.clean` (models.py lines 101-127). Returns the (possibly
mutated) entry: on full validation it stores
`duration_minutes = (end-start)//60 - break_minutes`; when `user_id`,
`work_date`, `start_time` or `end_time` is missing it returns immediately
with nothing checked and nothing changed. `start_time`/`end_time` are
already datetimes, so the `datetime.combine` fallback branch is dead. -/
def modelClean (self : TimesheetEntry) (entries : List TimesheetEntry) : Except PyErr TimesheetEntry :=
  match self.user_id, self.work_date, self.start_time, self.end_time with
  | some _, some _, some s, some e =>
    if e ≤ s then
      .error (.validationError "End time must be after start time.")
    else
      let raw : Int := ((e - s) / 60 : Nat) - (self.break_minutes : Int)
      if raw ≤ 0 then
        .error (.validationError "Duration must be greater than zero after break.")
      else
        (modelOverlapLoop self.start_time self.end_time (modelCleanQs self entries)).map
          fun _ => { self with duration_minutes := raw.toNat }
  | _, _, _, _ => .ok self

/-- The queryset of `TimesheetEntryForm.clean` (forms.py):
`filter(user=self.user, work_date=work_date)` then `.exclude(pk=instance.pk)`
when editing. -/
def formQs (uid wd : Nat) (instPk : Option Nat) (entries : List TimesheetEntry) : List TimesheetEntry :=
  let qs := entries.filter fun x => x.user_id == some uid && x.work_date == some wd
  match instPk with
  | some pk => qs.filter fun x => x.pk != some pk
  | none => qs

/-- The overlap loop of `TimesheetEntryForm.clean` (forms.py lines 106-136):
an existing entry without `start_time` is skipped; a missing `end_time`
becomes `timezone.now() + timedelta(days=365)`; conflict when
`not (new_end <= e_start or new_start >= e_end)`. -/
def formOverlapLoop (ns ne now : Nat) : List TimesheetEntry → Except String Unit
  | [] => .ok ()
  | x :: rest =>
    match x.start_time with
    | none => formOverlapLoop ns ne now rest
    | some es =>
      let ee := x.end_time.getD (now + 365 * 86400)
      if ¬(ne ≤ es ∨ ee ≤ ns) then
        .error "This time range overlaps an existing entry."
      else
        formOverlapLoop ns ne now rest

/-- `TimesheetEntryForm.clean` (forms.py lines 93-138) for a form built with
a user: the ordering check on the combined date+time fields when both times
are provided, then the overlap scan over the user's entries of the same
`work_date`. Timezone normalization is the identity here (one zone). -/
def formClean (uid wd : Nat) (start_t end_t : Option Nat) (instPk : Option Nat)
    (entries : List TimesheetEntry) (now : Nat) : Except String Unit := do
  (match start_t, end_t with
   | some s, some e =>
     if combine wd e ≤ combine wd s then
       Except.error "End time must be after start time."
     else .ok ()
   | _, _ => .ok ())
  match start_t, end_t with
  | some s, some e =>
    formOverlapLoop (combine wd s) (combine wd e) now (formQs uid wd instPk entries)
  | _, _ => .ok ()

/-- A fresh `TimesheetEntry` as `TimesheetEntryForm.save(commit=False)`
leaves it for a new row: model defaults `break_minutes` per the form,
`duration_minutes = 0`, times not yet composed. -/
def freshEntry (uid wd : Nat) (proj : Option String) (breakm : Nat) (bill : Bool)
    (notes : String) : TimesheetEntry :=
  { pk := none, user_id := some uid, project := proj, work_date := some wd,
    start_time := none, end_time := none, break_minutes := breakm,
    duration_minutes := 0, billable := bill, notes := notes }

/-- `add_edit_entry` (views.py lines 822-860), POST path for a new entry:
form validation (`TimesheetEntryForm.clean`, then the model guard
`full_clean → TimesheetEntry.clean` on the instance, whose `start_time` is
still unset at that point), then the view composes `start_time`/`end_time`
from `work_date` + the time fields and overwrites
`duration_minutes = int((end_time - start_time).total_seconds() / 60)`
before saving. -/
def add_edit_entry (uid wd : Nat) (start_t end_t : Option Nat) (proj : Option String)
    (breakm : Nat) (bill : Bool) (notes : String) (entries : List TimesheetEntry)
    (now newPk : Nat) : Except PyErr TimesheetEntry := do
  match formClean uid wd start_t end_t none entries now with
  | .error m => throw (.validationError m)
  | .ok _ => pure ()
  let obj0 ← modelClean (freshEntry uid wd proj breakm bill notes) entries
  let obj1 := match start_t with
    | some s => { obj0 with start_time := some (combine wd s) }
    | none => obj0
  let obj2 := match end_t with
    | some e => { obj1 with end_time := some (combine wd e) }
    | none => obj1
  let obj3 := match obj2.start_time, obj2.end_time with
    | some s, some e => { obj2 with duration_minutes := (e - s) / 60 }
    | _, _ => obj2
  pure { obj3 with pk := some newPk }

/-- The duration the spec prescribes for an accepted entry:
`floor((end - start) in seconds / 60) - break_minutes`. -/
def specDuration (startSec endSec breakm : Nat) : Int :=
  ((endSec - startSec) / 60 : Nat) - (breakm : Int)

-- ------------------- Timer Session Manager -------------------

/-- `TimesheetEntry.objects.filter(user=user, end_time__isnull=True).exists()`
(views.py `start_time_entry`). -/
def hasRunningTimer (uid : Nat) (entries : List TimesheetEntry) : Bool :=
  entries.any fun e => e.user_id == some uid && e.end_time == none

/-- `filter(user=user, work_date=today, start_time__lte=now,
end_time__gte=now).exists()` — the extra guard of the employee
`start_time_entry`; Django field lookups never match NULL columns. -/
def hasSpanningToday (uid today now : Nat) (entries : List TimesheetEntry) : Bool :=
  entries.any fun e =>
    e.user_id == some uid && e.work_date == some today &&
    (match e.start_time, e.end_time with
     | some s, some en => decide (s ≤ now) && decide (now ≤ en)
     | _, _ => false)

/-- The row `TimesheetEntry.objects.create(...)` inserts when a timer
starts: `start_time = now`, `work_date = today`, `duration_minutes = 0`,
model defaults `break_minutes = 0` and `billable = True`. -/
def startedEntry (uid today now : Nat) (proj : Option String) (notes : String)
    (newPk : Nat) : TimesheetEntry :=
  { pk := some newPk, user_id := some uid, project := proj, work_date := some today,
    start_time := some now, end_time := none, break_minutes := 0,
    duration_minutes := 0, billable := true, notes := notes }

/-- Outcome of a timer-start request. -/
inductive TimerStart where
  | alreadyRunning
  | overlapToday
  | started (e : TimesheetEntry)
deriving DecidableEq, Repr

/-- `start_time_entry` (views.py lines 495-535), POST path: refuse when a
running entry exists; refuse when a completed entry of today spans `now`;
otherwise insert exactly one new running entry. Returns the outcome and
the resulting entry set. -/
def start_time_entry (uid : Nat) (entries : List TimesheetEntry) (now today : Nat)
    (proj : Option String) (notes : String) (newPk : Nat) :
    TimerStart × List TimesheetEntry :=
  if hasRunningTimer uid entries then
    (.alreadyRunning, entries)
  else if hasSpanningToday uid today now entries then
    (.overlapToday, entries)
  else
    let e := startedEntry uid today now proj notes newPk
    (.started e, entries ++ [e])

-- ------------------- WeekSummary and the approval flow -------------------

/-- `status` values of `WeekSummary` (models.py STATUS_CHOICES). -/
inductive WeekStatus where
  | draft
  | submitted
  | approved
  | rejected
deriving DecidableEq, Repr

/-- Row of `WeekSummary` (models.py lines 130-152). -/
structure WeekSummary where
  pk : Nat
  user_id : Nat
  week_start : Nat
  status : WeekStatus
  approver : Option Nat
  submitted_at : Option Nat
  approved_at : Option Nat
  audit_note : String
  manager_comment : Option String
deriving DecidableEq, Repr

/-- A fresh draft `WeekSummary`, all model defaults. -/
def newDraftWeek (uid ws pk : Nat) : WeekSummary :=
  { pk := pk, user_id := uid, week_start := ws, status := .draft,
    approver := none, submitted_at := none, approved_at := none,
    audit_note := "", manager_comment := none }

/-- `WeekSummary.objects.get_or_create(user=..., week_start=...,
defaults={"status": STATUS_DRAFT})` over a materialized table: returns the
new table, the row, and the `created` flag. -/
def getOrCreate (store : List WeekSummary) (uid ws newPk : Nat) :
    List WeekSummary × WeekSummary × Bool :=
  match store.find? (fun w => w.user_id == uid && w.week_start == ws) with
  | some w => (store, w, false)
  | none =>
    let w := newDraftWeek uid ws newPk
    (store ++ [w], w, true)

/-- `week.save()` over the table: replace the row with matching pk. -/
def saveWeek (store : List WeekSummary) (w : WeekSummary) : List WeekSummary :=
  store.map fun x => if x.pk == w.pk then w else x

/-- `week_detail` (views.py lines 694-718), POST branch: on
`action == "approve"` or `"reject"` it unconditionally sets the status and
records approver, `approved_at = now`, `audit_note`, `manager_comment`;
any other action leaves the week untouched. There is no check of the
current status. -/
def week_detail_post (week : WeekSummary) (action : String) (actorId now : Nat)
    (note comment : String) : WeekSummary :=
  if action == "approve" then
    { week with
        status := .approved
        approver := some actorId
        approved_at := some now
        audit_note := note
        manager_comment := some comment }
  else if action == "reject" then
    { week with
        status := .rejected
        approver := some actorId
        approved_at := some now
        audit_note := note
        manager_comment := some comment }
  else
    week

/-- `submit_week` (views.py lines 723-731): `get_or_create` the current
week's summary, then unconditionally set `status = submitted` and
`submitted_at = now` and save. Returns the new table and the saved row. -/
def submit_week (store : List WeekSummary) (uid ws now newPk : Nat) :
    List WeekSummary × WeekSummary :=
  let r := getOrCreate store uid ws newPk
  let w := r.2.1
  let w2 := { w with status := .submitted, submitted_at := some now }
  (saveWeek r.1 w2, w2)

-- ------------------- Week Aggregator: reports -------------------

/-- Group key of an entry: `e.project.name if e.project else 'Unassigned'`. -/
def entryKey (e : TimesheetEntry) : String := e.project.getD "Unassigned"

/-- `(e.duration_minutes or 0) / 60.0`, exactly in ℚ. -/
def entryHours (e : TimesheetEntry) : ℚ := (e.duration_minutes : ℚ) / 60

/-- Accumulated hours of a project group (`project_map[name]` in
`manager_reports`, views.py lines 750-765). -/
def projHours (entries : List TimesheetEntry) (k : String) : ℚ :=
  ((entries.filter fun e => entryKey e == k).map entryHours).sum

/-- Accumulated billable hours of a project group (`billable_map[name]`). -/
def projBillable (entries : List TimesheetEntry) (k : String) : ℚ :=
  ((entries.filter fun e => entryKey e == k && e.billable).map entryHours).sum

/-- Python `round(x, 2)` on our exact rationals. -/
def round2 (x : ℚ) : ℚ := ((round (x * 100) : ℤ) : ℚ) / 100

/-- The group keys in first-appearance order (Python dict insertion
order). -/
def reportKeys (entries : List TimesheetEntry) : List String :=
  entries.foldl (fun acc e => if entryKey e ∈ acc then acc else acc ++ [entryKey e]) []

/-- One row of the hours-by-project report. -/
structure ReportRow where
  project : String
  hours : ℚ
  billable_hours : ℚ
  percent_billable : ℚ
deriving DecidableEq, Repr

/-- The `rows` list `manager_reports` builds: per group, rounded hours and
billable hours, and `pct_bill = round((bill / hrs * 100) if hrs else 0, 2)`. -/
def reportRows (entries : List TimesheetEntry) : List ReportRow :=
  (reportKeys entries).map fun k =>
    let hrs := projHours entries k
    let bill := projBillable entries k
    { project := k
      hours := round2 hrs
      billable_hours := round2 bill
      percent_billable := round2 (if hrs = 0 then 0 else bill / hrs * 100) }

-- ------------------- Week Aggregator: calendar heatmap -------------------

/-- The per-date hour totals behind `hours_map` in `employee_dashboard`
(views.py lines 434-453): summed `duration_minutes` of the user's entries
on that date divided by 60; dates with no entries get 0 (the
`hours_map.get(current_date, 0)` default). -/
def dayHours (entries : List TimesheetEntry) (d : Nat) : ℚ :=
  (((entries.filter fun e => e.work_date == some d).map
      (fun e => (e.duration_minutes : ℚ))).sum) / 60

/-- The date-walking loop of `employee_dashboard`: a new week bucket is
flushed whenever `current_date.weekday() == 6` and the pending bucket is
non-empty; the trailing bucket is appended at the end. `d` is the current
date, `n` the number of dates still to visit, `week` the pending bucket. -/
def calAux (hours : Nat → ℚ) : Nat → Nat → List (Nat × ℚ) → List (List (Nat × ℚ))
  | _, 0, week => if week.isEmpty then [] else [week]
  | d, n + 1, week =>
    if weekday d = 6 ∧ ¬week.isEmpty then
      week :: calAux hours (d + 1) n [(d, hours d)]
    else
      calAux hours (d + 1) n (week ++ [(d, hours d)])

/-- `cal_data` of `employee_dashboard`: buckets for `len` consecutive dates
starting at `start`, each date paired with its hours. -/
def calData (hours : Nat → ℚ) (start len : Nat) : List (List (Nat × ℚ)) :=
  calAux hours start len []

/-- The consecutive dates `start, start+1, …` of length `n`. -/
def datesFrom (start : Nat) : Nat → List Nat
  | 0 => []
  | n + 1 => start :: datesFrom (start + 1) n

-- ------------------- Concrete fixtures used by witnesses -------------------

/-- Spec Example 2's existing entry A: 09:00-12:00 on day ordinal 0. -/
def entryA : TimesheetEntry :=
  { pk := some 1, user_id := some 1, project := none, work_date := some 0,
    start_time := some 32400, end_time := some 43200, break_minutes := 0,
    duration_minutes := 180, billable := true, notes := "" }

/-- A running entry (timer started, `end_time` NULL). -/
def runningEntry : TimesheetEntry :=
  { pk := some 2, user_id := some 1, project := none, work_date := some 0,
    start_time := some 150, end_time := none, break_minutes := 0,
    duration_minutes := 0, billable := true, notes := "" }

/-- A complete candidate entry of the same user and day whose interval
reaches past `runningEntry`'s start. -/
def candEntry : TimesheetEntry :=
  { pk := some 5, user_id := some 1, project := none, work_date := some 0,
    start_time := some 100, end_time := some 200, break_minutes := 0,
    duration_minutes := 0, billable := true, notes := "" }

/-- Spec Example 5's entries: two ProjA entries, 120 min billable and
60 min non-billable. -/
def c8entries : List TimesheetEntry :=
  [{ pk := some 1, user_id := some 1, project := some "ProjA", work_date := some 0,
     start_time := none, end_time := none, break_minutes := 0,
     duration_minutes := 120, billable := true, notes := "" },
   { pk := some 2, user_id := some 1, project := some "ProjA", work_date := some 0,
     start_time := none, end_time := none, break_minutes := 0,
     duration_minutes := 60, billable := false, notes := "" }]

/-- The row `add_edit_entry` persists for spec Example 1 (start 09:00,
end 17:00, break 60): the view stores the gross 480 minutes. -/
def c1entry : TimesheetEntry :=
  { pk := some 7, user_id := some 1, project := none, work_date := some 0,
    start_time := some 32400, end_time := some 61200, break_minutes := 60,
    duration_minutes := 480, billable := true, notes := "" }

-- ------------------- C1 -------------------

/-- C1: spec Example 1 (start 09:00, end 17:00, break 60) run through the
accepted save path of `add_edit_entry` stores `duration_minutes = 480`, not
the 420 the spec prescribes: the view's
`duration_minutes = int(delta.total_seconds() / 60)` never subtracts
`break_minutes`. The model's own `TimesheetEntry.clean`, re-run on the very
row the view saved, would store 420, matching `specDuration` — the view
contradicts the model layer it is supposed to persist. -/
theorem C1_view_stores_gross_minutes :
    add_edit_entry 1 0 (some 32400) (some 61200) none 60 true "" [] 0 7 = .ok c1entry
    ∧ c1entry.duration_minutes = 480
    ∧ specDuration 32400 61200 60 = 420
    ∧ modelClean c1entry [] = .ok { c1entry with duration_minutes := 420 }
    ∧ (480 : Nat) ≠ 420 := by
  refine ⟨rfl, rfl, by decide, rfl, by decide⟩

-- ------------------- C2 -------------------

/-- C2 counterexample: approving a WeekSummary whose status is `draft`
does not fail and does not leave it unchanged — `week_detail` performs no
state check, so the draft week is simply approved. -/
theorem C2_approve_succeeds_on_draft :
    (newDraftWeek 1 100 1).status = .draft
    ∧ (week_detail_post (newDraftWeek 1 100 1) "approve" 2 999 "n" "c").status = .approved
    ∧ week_detail_post (newDraftWeek 1 100 1) "approve" 2 999 "n" "c" ≠ newDraftWeek 1 100 1 := by
  refine ⟨rfl, rfl, by decide⟩

/-- C2 amended: `week_detail`'s approve and reject actions succeed from
*any* current status (no state check exists); they record the approver,
`approved_at = now`, the audit note and the manager comment and set the
status to approved resp. rejected. -/
theorem C2_approve_reject_unconditional (week : WeekSummary) (actorId now : Nat)
    (note comment : String) :
    week_detail_post week "approve" actorId now note comment =
      { week with
          status := .approved
          approver := some actorId
          approved_at := some now
          audit_note := note
          manager_comment := some comment }
    ∧ week_detail_post week "reject" actorId now note comment =
      { week with
          status := .rejected
          approver := some actorId
          approved_at := some now
          audit_note := note
          manager_comment := some comment } := by
  exact ⟨rfl, rfl⟩

-- ------------------- C3 -------------------

/-- C3 counterexample: submitting when the week is already `approved` does
not fail with `AlreadySubmitted` and does change the summary —
`submit_week` unconditionally overwrites `status` and `submitted_at`. -/
theorem C3_submit_overrides_approved :
    (submit_week [{ newDraftWeek 1 100 1 with status := .approved }] 1 100 999 2).2.status
        = .submitted
    ∧ (submit_week [{ newDraftWeek 1 100 1 with status := .approved }] 1 100 999 2).1
        ≠ [{ newDraftWeek 1 100 1 with status := .approved }] := by
  refine ⟨rfl, by decide⟩

/-- The row `getOrCreate` hands back is in the table it hands back. -/
theorem getOrCreate_mem (store : List WeekSummary) (uid ws newPk : Nat) :
    (getOrCreate store uid ws newPk).2.1 ∈ (getOrCreate store uid ws newPk).1 := by
  unfold getOrCreate
  cases h : store.find? (fun w => w.user_id == uid && w.week_start == ws) with
  | some w => simpa using List.mem_of_find?_eq_some h
  | none => simp

/-- Replacing a stored row by pk keeps the replacement in the table. -/
theorem mem_saveWeek (store : List WeekSummary) (w w2 : WeekSummary)
    (hw : w ∈ store) (hpk : w.pk = w2.pk) : w2 ∈ saveWeek store w2 := by
  unfold saveWeek
  have h := List.mem_map_of_mem (fun x => if x.pk == w2.pk then w2 else x) hw
  simpa [hpk] using h

/-- C3 amended: `submit_week` never fails and performs no state check:
from any prior status it takes the (possibly freshly created draft) week
summary, sets `status = submitted` and `submitted_at = now` leaving every
other field as it was, and saves that row back into the table. -/
theorem C3_submit_always_submits (store : List WeekSummary) (uid ws now newPk : Nat) :
    (submit_week store uid ws now newPk).2 =
      { (getOrCreate store uid ws newPk).2.1 with
          status := .submitted
          submitted_at := some now }
    ∧ (submit_week store uid ws now newPk).2 ∈ (submit_week store uid ws now newPk).1 := by
  constructor
  · rfl
  · show _ ∈ saveWeek (getOrCreate store uid ws newPk).1 _
    exact mem_saveWeek _ (getOrCreate store uid ws newPk).2.1 _
      (getOrCreate_mem store uid ws newPk) rfl

-- ------------------- C10 -------------------

/-- C10: `TimesheetEntry.clean` returns immediately — no error raised, no
field touched — whenever the user, the work date, the start time or the
end time is missing, so none of the per-entry invariants are enforced for
partial or running entries. -/
theorem C10_clean_skips_partial (self : TimesheetEntry) (entries : List TimesheetEntry)
    (h : self.user_id = none ∨ self.work_date = none ∨ self.start_time = none
        ∨ self.end_time = none) :
    modelClean self entries = .ok self := by
  rcases h with h | h | h | h
  · simp [modelClean, h]
  · cases hu : self.user_id <;> simp [modelClean, h, hu]
  · cases hu : self.user_id <;> cases hw : self.work_date <;> simp [modelClean, h, hu, hw]
  · cases hu : self.user_id <;> cases hw : self.work_date <;>
      cases hs : self.start_time <;> simp [modelClean, h, hu, hw, hs]

/-- C10 witness: a running entry (NULL `end_time`) whose interval would
collide with `entryA` sails through `TimesheetEntry.clean` untouched. -/
theorem C10_clean_skips_partial_witness :
    (runningEntry.user_id = none ∨ runningEntry.work_date = none
        ∨ runningEntry.start_time = none ∨ runningEntry.end_time = none)
    ∧ modelClean runningEntry [entryA] = .ok runningEntry :=
  ⟨Or.inr (Or.inr (Or.inr rfl)),
   C10_clean_skips_partial runningEntry [entryA] (Or.inr (Or.inr (Or.inr rfl)))⟩

-- ------------------- C4 -------------------

/-- When every scanned entry has both times set, the form's overlap loop
raises exactly on an intersecting half-open interval. -/
theorem formOverlapLoop_error_iff (ns ne now : Nat) (l : List TimesheetEntry)
    (hc : ∀ x ∈ l, x.start_time ≠ none ∧ x.end_time ≠ none) :
    (formOverlapLoop ns ne now l = .error "This time range overlaps an existing entry."
      ↔ ∃ x ∈ l, ∃ xs xe, x.start_time = some xs ∧ x.end_time = some xe
          ∧ ¬(ne ≤ xs ∨ xe ≤ ns)) := by
  induction l with
  | nil => simp [formOverlapLoop]
  | cons x rest ih =>
    obtain ⟨hs, he⟩ := hc x (by simp)
    obtain ⟨xs, hxs⟩ := Option.ne_none_iff_exists'.mp hs
    obtain ⟨xe, hxe⟩ := Option.ne_none_iff_exists'.mp he
    have ih' := ih fun y hy => hc y (List.mem_cons_of_mem x hy)
    by_cases hov : ne ≤ xs ∨ xe ≤ ns
    · rw [formOverlapLoop, hxs]
      simp only [hxe, Option.getD_some]
      rw [if_neg (not_not_intro hov)]
      rw [ih']
      constructor
      · rintro ⟨y, hy, p⟩
        exact ⟨y, List.mem_cons_of_mem x hy, p⟩
      · rintro ⟨y, hy, ys, ye, hys, hye, hno⟩
        rcases List.mem_cons.mp hy with rfl | hy'
        · rw [hxs] at hys
          rw [hxe] at hye
          cases hys
          cases hye
          exact absurd hov hno
        · exact ⟨y, hy', ys, ye, hys, hye, hno⟩
    · rw [formOverlapLoop, hxs]
      simp only [hxe, Option.getD_some]
      rw [if_pos hov]
      constructor
      · intro _
        exact ⟨x, List.mem_cons_self x rest, xs, xe, hxs, hxe, hov⟩
      · intro _
        rfl

/-- C4: for a candidate with both times set (and a sane range) whose
existing same-user same-day entries all have both times set,
`TimesheetEntryForm.clean` rejects with the overlap error exactly when
some existing interval intersects the candidate's half-open interval,
i.e. when NOT(new_end ≤ other_start OR new_start ≥ other_end). -/
theorem C4_overlap_error_iff (uid wd s e : Nat) (pk : Option Nat)
    (entries : List TimesheetEntry) (now : Nat) (hse : s < e)
    (hc : ∀ x ∈ formQs uid wd pk entries, x.start_time ≠ none ∧ x.end_time ≠ none) :
    (formClean uid wd (some s) (some e) pk entries now
        = .error "This time range overlaps an existing entry."
      ↔ ∃ x ∈ formQs uid wd pk entries, ∃ xs xe,
          x.start_time = some xs ∧ x.end_time = some xe
          ∧ ¬(combine wd e ≤ xs ∨ xe ≤ combine wd s)) := by
  have hguard : ¬(combine wd e ≤ combine wd s) := by
    simp only [combine]
    omega
  have hred : formClean uid wd (some s) (some e) pk entries now
      = formOverlapLoop (combine wd s) (combine wd e) now (formQs uid wd pk entries) := by
    simp only [formClean, if_neg hguard]
    rfl
  rw [hred]
  exact formOverlapLoop_error_iff _ _ now _ hc

/-- C4 witness: spec Example 2 — existing A = [09:00, 12:00), candidate
B = [11:00, 13:00) for the same user and day is rejected with the overlap
error. -/
theorem C4_overlap_error_iff_witness :
    (39600 : Nat) < 46800
    ∧ (∀ x ∈ formQs 1 0 none [entryA], x.start_time ≠ none ∧ x.end_time ≠ none)
    ∧ formClean 1 0 (some 39600) (some 46800) none [entryA] 0
        = .error "This time range overlaps an existing entry." := by
  refine ⟨by decide, by decide, ?_⟩
  exact (C4_overlap_error_iff 1 0 39600 46800 none [entryA] 0 (by decide) (by decide)).mpr
    ⟨entryA, by decide, 32400, 43200, rfl, rfl, by decide⟩

-- ------------------- C5 -------------------

/-- C5 counterexample: a user with *no* running entry (so the claim's
"every other case" applies) whose completed entry of today spans `now` —
the employee timer start creates nothing and the entry set is unchanged. -/
theorem C5_blocked_without_running_timer :
    hasRunningTimer 1 [entryA] = false
    ∧ start_time_entry 1 [entryA] 36000 0 none "" 9 = (.overlapToday, [entryA]) := by
  refine ⟨by decide, by decide⟩

/-- C5 amended: `start_time_entry` fails leaving the entry set unchanged
when the user already has a running entry; it *also* fails, creating
nothing, when a completed entry of today satisfies
`start_time ≤ now ≤ end_time`; in every remaining case it appends exactly
one new entry with `start_time = now`, `work_date = today` and
`duration_minutes = 0`. (The manager-path `manager_start_time_entry` lacks
the second guard.) -/
theorem C5_start_timer_cases (uid now today newPk : Nat) (proj : Option String)
    (notes : String) (entries : List TimesheetEntry) :
    (hasRunningTimer uid entries = true →
      start_time_entry uid entries now today proj notes newPk = (.alreadyRunning, entries))
    ∧ (hasRunningTimer uid entries = false → hasSpanningToday uid today now entries = true →
      start_time_entry uid entries now today proj notes newPk = (.overlapToday, entries))
    ∧ (hasRunningTimer uid entries = false → hasSpanningToday uid today now entries = false →
      start_time_entry uid entries now today proj notes newPk =
        (.started (startedEntry uid today now proj notes newPk),
          entries ++ [startedEntry uid today now proj notes newPk])
      ∧ (startedEntry uid today now proj notes newPk).start_time = some now
      ∧ (startedEntry uid today now proj notes newPk).work_date = some today
      ∧ (startedEntry uid today now proj notes newPk).duration_minutes = 0) := by
  refine ⟨fun h => by simp [start_time_entry, h],
         fun h1 h2 => by simp [start_time_entry, h1, h2],
         fun h1 h2 => ⟨by simp [start_time_entry, h1, h2], rfl, rfl, rfl⟩⟩

/-- C5 witness: with an empty entry set the timer starts and appends the
single expected running entry. -/
theorem C5_start_timer_cases_witness :
    hasRunningTimer 1 ([] : List TimesheetEntry) = false
    ∧ hasSpanningToday 1 0 500 ([] : List TimesheetEntry) = false
    ∧ start_time_entry 1 [] 500 0 none "" 3 =
        (.started (startedEntry 1 0 500 none "" 3), [startedEntry 1 0 500 none "" 3]) :=
  ⟨rfl, rfl, ((C5_start_timer_cases 1 500 0 3 none "" []).2.2 rfl rfl).1⟩

-- ------------------- C6 -------------------

/-- C6 counterexample: the *model-level* overlap check
(`TimesheetEntry.clean`) does not treat a running existing entry as an
open interval — it compares the candidate's datetime against `None` and
dies with a `TypeError`, so this overlap check neither accepts nor raises
`OverlapConflict`. -/
theorem C6_model_check_type_error :
    runningEntry.end_time = none
    ∧ modelClean candEntry [runningEntry] = .error .typeError := by
  refine ⟨rfl, rfl⟩

/-- C6 amended: in the *form-level* overlap scan an existing entry without
`start_time` is skipped and a running entry (NULL `end_time`) is treated
as ending at `now + 365 days`, so that scan always evaluates; the
*model-level* scan instead raises a `TypeError` as soon as it reaches an
entry whose `start_time` is NULL (and, as `C6_model_check_type_error`
shows on a concrete state, comparing against a NULL `end_time` is equally
fatal). -/
theorem C6_form_null_handling :
    (∀ (ns ne now : Nat) (x : TimesheetEntry) (rest : List TimesheetEntry),
      x.start_time = none →
        formOverlapLoop ns ne now (x :: rest) = formOverlapLoop ns ne now rest)
    ∧ (∀ (ns ne now : Nat) (x : TimesheetEntry) (rest : List TimesheetEntry) (xs : Nat),
      x.start_time = some xs → x.end_time = none →
        formOverlapLoop ns ne now (x :: rest) =
          formOverlapLoop ns ne now ({ x with end_time := some (now + 365 * 86400) } :: rest))
    ∧ (∀ (st en : Option Nat) (x : TimesheetEntry) (rest : List TimesheetEntry),
      x.start_time = none → modelOverlapLoop st en (x :: rest) = .error .typeError) := by
  refine ⟨?_, ?_, ?_⟩
  · intro ns ne now x rest h
    rw [formOverlapLoop, h]
  · intro ns ne now x rest xs hs he
    rw [formOverlapLoop, hs, he]
    rw [formOverlapLoop]
    simp [hs]
  · intro st en x rest h
    rw [modelOverlapLoop, h]
    cases en <;> rfl

/-- C6 witness: a NULL-start entry is skipped by the form scan, a running
entry is scanned as if it ended 365 days after `now`, and the model scan
type-errors on the NULL-start entry. -/
theorem C6_form_null_handling_witness :
    formOverlapLoop 100 200 0 [{ runningEntry with start_time := none }]
        = formOverlapLoop 100 200 0 []
    ∧ formOverlapLoop 100 200 0 [runningEntry]
        = formOverlapLoop 100 200 0 [{ runningEntry with end_time := some (0 + 365 * 86400) }]
    ∧ modelOverlapLoop (some 100) (some 200) [{ runningEntry with start_time := none }]
        = .error .typeError :=
  ⟨C6_form_null_handling.1 100 200 0 _ [] rfl,
   C6_form_null_handling.2.1 100 200 0 runningEntry [] 150 rfl rfl,
   C6_form_null_handling.2.2 (some 100) (some 200) _ [] rfl⟩

-- ------------------- C7 -------------------

/-- `find?` skips a prefix in which it finds nothing. -/
theorem find?_append_of_none {α : Type} (p : α → Bool) (l1 l2 : List α)
    (h : l1.find? p = none) : (l1 ++ l2).find? p = l2.find? p := by
  induction l1 with
  | nil => simp
  | cons a l ih =>
    cases hp : p a with
    | true =>
      rw [List.find?_cons_of_pos l hp] at h
      cases h
    | false =>
      rw [List.find?_cons_of_neg l (by simp [hp])] at h
      rw [List.cons_append, List.find?_cons_of_neg _ (by simp [hp])]
      exact ih h

/-- C7: WeekSummary `get_or_create` is idempotent: the second of two
successive calls for the same (user, week_start) returns the very row the
first call returned (same pk, same status — nothing changed) and leaves
the table untouched; a row is created, in draft status, only when none
existed. The operation is a total function — it never errors. -/
theorem C7_get_or_create_idempotent (store : List WeekSummary) (uid ws pk1 pk2 : Nat) :
    (getOrCreate (getOrCreate store uid ws pk1).1 uid ws pk2).2.1
        = (getOrCreate store uid ws pk1).2.1
    ∧ (getOrCreate (getOrCreate store uid ws pk1).1 uid ws pk2).1
        = (getOrCreate store uid ws pk1).1
    ∧ ((getOrCreate store uid ws pk1).2.2 = true →
        (getOrCreate store uid ws pk1).2.1.status = .draft) := by
  cases h : store.find? (fun w => w.user_id == uid && w.week_start == ws) with
  | some w => simp [getOrCreate, h]
  | none =>
    have h2 : (store ++ [newDraftWeek uid ws pk1]).find?
        (fun w => w.user_id == uid && w.week_start == ws)
        = some (newDraftWeek uid ws pk1) := by
      rw [find?_append_of_none _ _ _ h]
      simp [List.find?, newDraftWeek]
    simp [getOrCreate, h, h2, newDraftWeek]

/-- C7 witness: on an empty table the first call creates a draft row and
the second call returns that same row. -/
theorem C7_get_or_create_idempotent_witness :
    (getOrCreate ([] : List WeekSummary) 1 100 5).2.2 = true
    ∧ (getOrCreate ([] : List WeekSummary) 1 100 5).2.1.status = .draft
    ∧ (getOrCreate (getOrCreate ([] : List WeekSummary) 1 100 5).1 1 100 6).2.1
        = (getOrCreate ([] : List WeekSummary) 1 100 5).2.1 :=
  ⟨rfl, (C7_get_or_create_idempotent [] 1 100 5 6).2.2 rfl,
   (C7_get_or_create_idempotent [] 1 100 5 6).1⟩

-- ------------------- C8 -------------------

/-- Every key reachable from the scanned entries ends up in the
insertion-ordered key list the report grouping builds. -/
theorem key_mem_foldl (l : List TimesheetEntry) :
    ∀ (acc : List String) (k : String),
      (k ∈ acc ∨ ∃ e ∈ l, entryKey e = k) →
      k ∈ l.foldl (fun acc e => if entryKey e ∈ acc then acc else acc ++ [entryKey e]) acc := by
  induction l with
  | nil =>
    intro acc k h
    rcases h with h | ⟨e, he, _⟩
    · simpa using h
    · exact absurd he (List.not_mem_nil e)
  | cons x rest ih =>
    intro acc k h
    rw [List.foldl_cons]
    apply ih
    rcases h with h | ⟨e, he, hk⟩
    · left
      by_cases hx : entryKey x ∈ acc
      · simpa [hx] using h
      · simp only [if_neg hx, List.mem_append]
        exact Or.inl h
    · subst hk
      rcases List.mem_cons.mp he with rfl | h2
      · left
        by_cases hx : entryKey e ∈ acc
        · simp only [if_pos hx]
          exact hx
        · simp [if_neg hx]
      · exact Or.inr ⟨e, h2, rfl⟩

/-- The row spec Example 5 expects: ProjA, 3.0 h, 2.0 h billable, 66.67%. -/
def c8row : ReportRow :=
  { project := "ProjA", hours := 3, billable_hours := 2, percent_billable := 6667 / 100 }

/-- C8: every report row carries `hours` and `billable_hours` of its group
rounded to 2 decimals and `percent_billable = billable_hours / hours × 100`
rounded to 2 decimals (0 when the group's hours are 0); entries with no
project fall in the "Unassigned" group; spec Example 5 — entries
{(ProjA, 120 min, billable), (ProjA, 60 min, non-billable)} — produces the
single row (ProjA, 3.0, 2.0, 66.67). -/
theorem C8_report_rows :
    (∀ (entries : List TimesheetEntry) (row : ReportRow), row ∈ reportRows entries →
      row.hours = round2 (projHours entries row.project)
      ∧ row.billable_hours = round2 (projBillable entries row.project)
      ∧ row.percent_billable =
          (if projHours entries row.project = 0 then 0
           else round2 (projBillable entries row.project / projHours entries row.project * 100)))
    ∧ (∀ (entries : List TimesheetEntry) (e : TimesheetEntry), e ∈ entries →
        e.project = none → "Unassigned" ∈ reportKeys entries)
    ∧ reportRows c8entries = [c8row] := by
  refine ⟨?_, ?_, ?_⟩
  · intro entries row hrow
    simp only [reportRows, List.mem_map] at hrow
    obtain ⟨k, hk, rfl⟩ := hrow
    refine ⟨rfl, rfl, ?_⟩
    by_cases h : projHours entries k = 0
    · simp [h, round2]
    · simp [h]
  · intro entries e he hp
    have : entryKey e = "Unassigned" := by simp [entryKey, hp]
    rw [reportKeys]
    exact key_mem_foldl entries [] "Unassigned" (Or.inr ⟨e, he, this⟩)
  · have hk : reportKeys c8entries = ["ProjA"] := rfl
    have hh : projHours c8entries "ProjA" = 3 := by
      norm_num [projHours, c8entries, entryKey, entryHours]
    have hb : projBillable c8entries "ProjA" = 2 := by
      norm_num [projBillable, c8entries, entryKey, entryHours]
    have h3 : round2 (3 : ℚ) = 3 := by
      rw [round2, round_eq]
      norm_num
    have h2 : round2 (2 : ℚ) = 2 := by
      rw [round2, round_eq]
      norm_num
    have hp : round2 ((200 : ℚ) / 3) = 6667 / 100 := by
      rw [round2, round_eq]
      norm_num
    rw [reportRows, hk]
    simp only [List.map_cons, List.map_nil, hh, hb]
    norm_num [h3, h2, hp, c8row]

/-- C8 witness: the general row property applied to Example 5's single
row. -/
theorem C8_report_rows_witness :
    c8row ∈ reportRows c8entries
    ∧ c8row.percent_billable
        = (if projHours c8entries c8row.project = 0 then 0
           else round2 (projBillable c8entries c8row.project
                / projHours c8entries c8row.project * 100)) := by
  have hmem : c8row ∈ reportRows c8entries := by
    rw [C8_report_rows.2.2]
    exact List.mem_singleton.mpr rfl
  exact ⟨hmem, (C8_report_rows.1 c8entries c8row hmem).2.2⟩

-- ------------------- C9 -------------------

/-- Flattening the calendar buckets recovers the pending bucket followed
by every remaining date paired with its hours. -/
theorem calAux_flatten (hours : Nat → ℚ) :
    ∀ (n d : Nat) (week : List (Nat × ℚ)),
      (calAux hours d n week).flatten = week ++ (datesFrom d n).map fun x => (x, hours x) := by
  intro n
  induction n with
  | zero =>
    intro d week
    by_cases h : week.isEmpty
    · simp [calAux, h, datesFrom, List.isEmpty_iff.mp h]
    · simp [calAux, h, datesFrom]
  | succ n ih =>
    intro d week
    rw [calAux]
    by_cases h : weekday d = 6 ∧ ¬week.isEmpty
    · rw [if_pos h]
      rw [List.flatten_cons, ih]
      simp [datesFrom]
    · rw [if_neg h]
      rw [ih]
      simp [datesFrom]

/-- If the pending bucket starts on a Sunday date, every bucket the loop
emits starts on a Sunday date. -/
theorem calAux_head_sunday (hours : Nat → ℚ) :
    ∀ (n d : Nat) (p : Nat × ℚ) (t : List (Nat × ℚ)), weekday p.1 = 6 →
      ∀ w ∈ calAux hours d n (p :: t), ∃ q r, w = q :: r ∧ weekday q.1 = 6 := by
  intro n
  induction n with
  | zero =>
    intro d p t hp w hw
    simp only [calAux, List.isEmpty_cons, if_neg] at hw
    simp only [Bool.false_eq_true, if_false, List.mem_singleton] at hw
    exact ⟨p, t, hw, hp⟩
  | succ n ih =>
    intro d p t hp w hw
    rw [calAux] at hw
    by_cases h : weekday d = 6 ∧ ¬(p :: t).isEmpty
    · rw [if_pos h] at hw
      rcases List.mem_cons.mp hw with rfl | hw2
      · exact ⟨p, t, rfl, hp⟩
      · exact ih (d + 1) (d, hours d) [] h.1 w hw2
    · rw [if_neg h] at hw
      exact ih (d + 1) p (t ++ [(d, hours d)]) hp w hw

/-- Every bucket after the first one the loop emits starts on a Sunday
date (`weekday() == 6` is the flush condition in the source). -/
theorem calAux_tail_sunday (hours : Nat → ℚ) :
    ∀ (n d : Nat) (week : List (Nat × ℚ)),
      ∀ w ∈ (calAux hours d n week).tail, ∃ q r, w = q :: r ∧ weekday q.1 = 6 := by
  intro n
  induction n with
  | zero =>
    intro d week w hw
    by_cases h : week.isEmpty <;> simp [calAux, h] at hw
  | succ n ih =>
    intro d week w hw
    rw [calAux] at hw
    by_cases h : weekday d = 6 ∧ ¬week.isEmpty
    · rw [if_pos h] at hw
      exact calAux_head_sunday hours n (d + 1) (d, hours d) [] h.1 w hw
    · rw [if_neg h] at hw
      exact ih (d + 1) (week ++ [(d, hours d)]) w hw

/-- C9 counterexample: for the 2024 calendar (Jan 1 2024 = day ordinal
738886, a Monday) with no entries, the buckets after the first do *not*
all start on a Monday — the dashboard loop flushes on `weekday() == 6`,
so they start on Sundays. -/
theorem C9_buckets_not_monday :
    weekday 738886 = 0
    ∧ ¬ ∀ w ∈ (calData (dayHours []) 738886 14).tail,
          (w.head?.map fun p => weekday p.1) = some 0 := by
  constructor
  · rfl
  · decide

/-- C9 amended: the calendar aggregation pairs every date of the range, in
order, with the user's total hours for that date (`dayHours`, which is 0
when the date has no entries), and buckets consecutive dates into weeks
that break at Sundays: every bucket after the first begins with a date
whose weekday is Sunday (GitHub-style), not Monday. -/
theorem C9_calendar_amended (entries : List TimesheetEntry) (start len : Nat) :
    (calData (dayHours entries) start len).flatten
        = (datesFrom start len).map (fun d => (d, dayHours entries d))
    ∧ ∀ w ∈ (calData (dayHours entries) start len).tail,
        ∃ q r, w = q :: r ∧ weekday q.1 = 6 := by
  constructor
  · simpa [calData] using calAux_flatten (dayHours entries) len start []
  · exact fun w hw => calAux_tail_sunday (dayHours entries) len start [] w hw

/-- C9 witness: the amended bucket property applied to the trailing bucket
of the concrete 2024 fortnight — it starts on Sunday, Jan 14 2024
(ordinal 738899). -/
theorem C9_calendar_amended_witness :
    [((738899 : Nat), dayHours [] 738899)] ∈ (calData (dayHours []) 738886 14).tail
    ∧ ∃ q r, ([((738899 : Nat), dayHours [] 738899)] : List (Nat × ℚ)) = q :: r
        ∧ weekday q.1 = 6 := by
  have hmem : [((738899 : Nat), dayHours [] 738899)]
      ∈ (calData (dayHours []) 738886 14).tail := by
    have h : (calData (dayHours []) 738886 14).tail[1]?
        = some [((738899 : Nat), dayHours [] 738899)] := rfl
    exact List.getElem?_mem h
  exact ⟨hmem, (C9_calendar_amended [] 738886 14).2 _ hmem⟩

end Tickr
